import Mathlib

/-!
Verification of the collaborative data layer (collab, collab-document,
collab-database, collab-folder, collab-plugins) against its specification.

The Rust sources are shallowly embedded: each stateful component becomes a
Lean structure with explicit state passing, fallible operations return
`Except`/`Option`, and machine integers become `Nat`/`Int` (no overflow is
relevant to the verified properties).  Code that lives outside the studied
sources (trait implementations such as `CollabSinkMessage::merge`, the
`BlockTaskController`, `ViewsMap::insert_view_with_txn`, `timestamp()`) is
modelled from the specification text and marked as such in its doc comment.
-/

set_option autoImplicit false

universe u

/-- Decidable equality on `Except`, used to evaluate concrete runs. -/
instance instDecidableEqExcept {ε : Type u} {α : Type u} [DecidableEq ε]
    [DecidableEq α] : DecidableEq (Except ε α) := fun x y =>
  match x, y with
  | .ok a, .ok b =>
    if h : a = b then isTrue (by rw [h])
    else isFalse (by intro hc; cases hc; exact h rfl)
  | .error a, .error b =>
    if h : a = b then isTrue (by rw [h])
    else isFalse (by intro hc; cases hc; exact h rfl)
  | .ok _, .error _ => isFalse (by intro hc; cases hc)
  | .error _, .ok _ => isFalse (by intro hc; cases hc)

/-! ## Association lists

The CRDT substrate exposes shared maps (`MapRef`).  We embed every such map
as an association list `List (String × α)` where `alPut` updates the first
binding in place (or appends a fresh binding), mirroring `Map::insert`
overwriting the value stored under an existing key. -/

namespace Alist

variable {α : Type u}

/-- Value stored under `k`, if any (first binding wins). -/
def alGet (k : String) : List (String × α) → Option α
  | [] => none
  | (k2, v) :: rest => if k2 = k then some v else alGet k rest

/-- Overwrite the binding of `k` (or append one when absent). -/
def alPut (k : String) (v : α) : List (String × α) → List (String × α)
  | [] => [(k, v)]
  | (k2, v2) :: rest =>
    if k2 = k then (k, v) :: rest else (k2, v2) :: alPut k v rest

/-- Remove the binding of `k`, if any. -/
def alRemove (k : String) : List (String × α) → List (String × α)
  | [] => []
  | (k2, v2) :: rest =>
    if k2 = k then rest else (k2, v2) :: alRemove k rest

@[simp] theorem alGet_nil (k : String) : alGet (α := α) k [] = none := rfl

theorem alGet_alPut_same (k : String) (v : α) (l : List (String × α)) :
    alGet k (alPut k v l) = some v := by
  induction l with
  | nil => simp [alGet, alPut]
  | cons hd tl ih =>
    obtain ⟨k2, v2⟩ := hd
    by_cases h : k2 = k
    · simp [alGet, alPut, h]
    · simp [alGet, alPut, h, ih]

theorem alPut_alPut_same (k : String) (v : α) (l : List (String × α)) :
    alPut k v (alPut k v l) = alPut k v l := by
  induction l with
  | nil => simp [alPut]
  | cons hd tl ih =>
    obtain ⟨k2, v2⟩ := hd
    by_cases h : k2 = k <;> simp [alPut, h, ih]

theorem alGet_alPut_ne (k j : String) (v : α) (l : List (String × α))
    (hne : j ≠ k) : alGet j (alPut k v l) = alGet j l := by
  have hkj : k ≠ j := Ne.symm hne
  induction l with
  | nil => simp [alGet, alPut, hkj]
  | cons hd tl ih =>
    obtain ⟨k2, v2⟩ := hd
    by_cases h : k2 = k
    · subst h
      simp [alGet, alPut, hkj]
    · simp [alGet, alPut, h, ih]

end Alist

/-- Insert `a` at position `n`, clamping to the end of the list.  This is the
behavior of inserting into a shared array at a computed index. -/
def insertAt {α : Type u} : Nat → α → List α → List α
  | 0, a, l => a :: l
  | _ + 1, a, [] => [a]
  | n + 1, a, x :: xs => x :: insertAt n a xs

@[simp] theorem insertAt_zero {α : Type u} (a : α) (l : List α) :
    insertAt 0 a l = a :: l := rfl

/-! ## Outbound sync sink (collab-plugins/src/cloud_storage/sink.rs)

`CollabSink` owns a queue of `PendingMessage`s.  The message payload itself
is opaque to the sink; the sink only consults the flags below (exposed in
the source through the `CollabSinkMessage` trait implemented in
`cloud_storage/msg.rs`, which is outside the studied sources). -/

namespace Sink

/-- State machine per message (`MessageState` in `cloud_storage/msg.rs`). -/
inductive MessageState : Type where
  | pending
  | processing
  | done
  | timeout
  deriving DecidableEq, Repr

def MessageState.isDone : MessageState → Bool
  | .done => true
  | _ => false

def MessageState.isProcessing : MessageState → Bool
  | .processing => true
  | _ => false

/-- A queued outbound message together with the bookkeeping the sink keeps
for it.  `size` is the payload length in bytes. -/
structure PendingMessage : Type where
  msgId : Nat
  state : MessageState
  mergeable : Bool
  deferrable : Bool
  isInit : Bool
  size : Nat
  deriving DecidableEq, Repr

def PendingMessage.setState (m : PendingMessage) (s : MessageState) :
    PendingMessage :=
  { m with state := s }

/-- Modelled from the spec: `CollabSinkMessage::merge` (implemented in
`cloud_storage/msg.rs`, not among the studied sources).  Merging the next
message into the in-flight one succeeds exactly when the next message is
mergeable and the merged payload stays within `maxMergeSize`; on success the
payloads are combined (sizes add), on failure the in-flight message is
unchanged and `none` is returned (the Boolean `false` of the source). -/
def PendingMessage.merge (maxMergeSize : Nat) (sending other : PendingMessage) :
    Option PendingMessage :=
  if other.mergeable && decide (sending.size + other.size ≤ maxMergeSize) then
    some { sending with size := sending.size + other.size }
  else
    none

/-- Sink strategy (`SinkStrategy`); the fixed interval is in milliseconds. -/
inductive SinkStrategy : Type where
  | asap
  | fixInterval (d : Nat)
  deriving DecidableEq, Repr

def SinkStrategy.isFixInterval : SinkStrategy → Bool
  | .fixInterval _ => true
  | .asap => false

/-- `SinkConfig` (timeout is irrelevant to the verified properties). -/
structure SinkConfig : Type where
  maxMergeSize : Nat
  strategy : SinkStrategy

/-- The pending-message queue, top of the queue first.  The source stores a
priority queue (`PendingMsgQueue`); the properties verified here are about
one scheduling tick, which only pops from the top and pushes the in-flight
message back at the head, so the list order is the queue order. -/
abbrev Queue := List PendingMessage

/-- The merge loop of `try_send_msg_immediately` (lines 227-235): repeatedly
pop the next top message and merge it into `sending`; the loop breaks when a
pop fails to merge.  Note that a popped message that fails to merge has
already been removed from the queue and is dropped. -/
def mergeLoop (maxMergeSize : Nat) (sending : PendingMessage) :
    Queue → PendingMessage × Queue
  | [] => (sending, [])
  | m :: rest =>
    match sending.merge maxMergeSize m with
    | some merged => mergeLoop maxMergeSize merged rest
    | none => (sending, rest)

/-- The in-flight message after successively merging a list of popped
messages into `s` (`none` when some merge along the way fails). -/
def absorb (maxMergeSize : Nat) (s : PendingMessage)
    (pre : List PendingMessage) : Option PendingMessage :=
  pre.foldl (fun acc m => acc.bind fun a => a.merge maxMergeSize m) (some s)

/-- Result of the queue-mutating phase of `try_send_msg_immediately`:
the message handed to the transport, the queue afterwards, and whether the
`Syncing` state was signalled. -/
structure SendPrep : Type where
  sent : PendingMessage
  queue : Queue
  syncing : Bool
  deriving DecidableEq, Repr

/-- The queue-mutating phase of `try_send_msg_immediately` (lines 195-245):
pop the top message; a `Done` message is discarded (with a re-notify), a
`Processing` message is pushed back untouched; otherwise run the merge loop
when the message is mergeable, mark it `Processing`, push it back at the
head and hand a copy to the transport. -/
def trySendPrep (cfg : SinkConfig) : Queue → Option SendPrep × Queue
  | [] => (none, [])
  | m :: rest =>
    if m.state.isDone then
      -- pop and notify to process the next pending message
      (none, rest)
    else if m.state.isProcessing then
      -- do nothing if the message is still processing
      (none, m :: rest)
    else
      let (sending, q2) :=
        if m.mergeable then mergeLoop cfg.maxMergeSize m rest else (m, rest)
      let sending2 := sending.setState .processing
      (some ⟨sending2, sending2 :: q2, !sending2.isInit⟩, sending2 :: q2)

/-- Result of `ack_msg`: the queue afterwards, whether the runner was
notified, and the condition evaluated by the `debug_assert!`. -/
structure AckResult : Type where
  queue : Queue
  notified : Bool
  assertionOk : Bool
  deriving DecidableEq, Repr

/-- `CollabSink::ack_msg` (lines 132-151): peek the head message; when its
id equals the acked id, mark it `Done` and notify; otherwise leave the queue
unchanged.  The `debug_assert!` checks `head.msgId ≥ msgId`. -/
def ackMsg (q : Queue) (msgId : Nat) : AckResult :=
  match q with
  | [] => ⟨[], false, true⟩
  | head :: rest =>
    if head.msgId = msgId then
      ⟨head.setState .done :: rest, true, decide (head.msgId ≥ msgId)⟩
    else
      ⟨head :: rest, false, decide (head.msgId ≥ msgId)⟩

/-- `CollabSink::process_next_msg` (lines 153-193), as a function of the
queue, the configured strategy and the time elapsed since the last send.
Returns the transport send (if any), the queue afterwards, and the elapsed
timer afterwards (reset to `0` exactly when a fixed-interval send fires). -/
def processNextMsg (cfg : SinkConfig) (elapsed : Nat) (q : Queue) :
    Option SendPrep × Queue × Nat :=
  let deferrable := (q.head?.map (fun m => m.deferrable)).getD true
  if !deferrable then
    -- non-deferrable messages are sent immediately
    let (sent, q2) := trySendPrep cfg q
    (sent, q2, elapsed)
  else
    match cfg.strategy with
    | .fixInterval d =>
      if elapsed < d then
        (none, q, elapsed)
      else
        let (sent, q2) := trySendPrep cfg q
        (sent, q2, 0)
    | .asap =>
      let (sent, q2) := trySendPrep cfg q
      (sent, q2, elapsed)

end Sink

/-! ## Document tree (collab-document/src/document.rs)

The document root holds `page_id`, `blocks` (id → block) and `meta` with
`children_map` (children id → ordered list of child block ids) and
`text_map` (external id → text delta).  `Document`'s mutating operations run
inside one write transaction; the embedding passes the document state
explicitly and returns the new state. -/

namespace Doc

open Alist

/-- A block record (the fields of `Block` used by `document.rs`).  `data` is
the block's key/value payload with JSON values kept opaque. -/
structure Block : Type where
  id : String
  parent : String
  children : String
  externalId : Option String := none
  externalType : Option String := none
  data : List (String × String) := []
  deriving DecidableEq, Repr

/-- The variants of `DocumentError` reachable from `document.rs`. -/
inductive DocumentError : Type where
  | pageIdIsEmpty
  | parentIsNotFound
  | blockIsNotFound
  | textActionParamsError
  | internal
  deriving DecidableEq, Repr

/-- The shared document state: `page_id`, the `blocks` map, the
`children_map` and the `text_map` (external id → applied deltas). -/
structure DocState : Type where
  pageId : Option String := none
  blocks : List (String × Block) := []
  childrenMap : List (String × List String) := []
  textMap : List (String × List String) := []
  deriving DecidableEq, Repr

/-- Modelled from the spec: `ChildrenOperation::get_children_with_txn`
(`blocks/children_op.rs`, not among the studied sources) returns the ordered
child list stored under a children id, creating an empty one if absent. -/
def childrenOf (st : DocState) (childrenId : String) : List String :=
  (alGet childrenId st.childrenMap).getD []

/-- Modelled from the spec: `ChildrenOperation::get_child_index_with_txn`
returns the index of a child id in the list, if present. -/
def getChildIndex (st : DocState) (childrenId childId : String) : Option Nat :=
  (childrenOf st childrenId).findIdx? (fun c => c = childId)

/-- Modelled from the spec: `ChildrenOperation::delete_child_with_txn`
removes the (first) occurrence of the child id from the list. -/
def deleteChild (st : DocState) (childrenId childId : String) : DocState :=
  { st with
    childrenMap :=
      alPut childrenId ((childrenOf st childrenId).erase childId) st.childrenMap }

/-- Modelled from the spec: `ChildrenOperation::insert_child_with_txn`
inserts the child id at the given index. -/
def insertChild (st : DocState) (childrenId childId : String) (index : Nat) :
    DocState :=
  { st with
    childrenMap :=
      alPut childrenId (insertAt index childId (childrenOf st childrenId))
        st.childrenMap }

/-- Modelled from the spec: `BlockOperation::get_block_with_txn` reads the
block stored under an id in the `blocks` map. -/
def getBlock (st : DocState) (blockId : String) : Option Block :=
  alGet blockId st.blocks

/-- Modelled from the spec: `BlockOperation::create_block_with_txn` stores
the block in the `blocks` map under its id and returns it. -/
def createBlock (st : DocState) (block : Block) :
    Except DocumentError (Block × DocState) :=
  Except.ok (block, { st with blocks := alPut block.id block st.blocks })

/-- Modelled from the spec: `BlockOperation::set_block_with_txn` updates the
fields of the stored block for which a new value is supplied (`None` leaves
the field unchanged); it fails when the block does not exist. -/
def setBlock (st : DocState) (blockId : String)
    (data : Option (List (String × String))) (parent : Option String)
    (externalId externalType : Option String) :
    Except DocumentError DocState :=
  match alGet blockId st.blocks with
  | none => Except.error DocumentError.blockIsNotFound
  | some b =>
    let b2 : Block :=
      { b with
        data := data.getD b.data
        parent := parent.getD b.parent
        externalId := match externalId with
          | some x => some x
          | none => b.externalId
        externalType := match externalType with
          | some x => some x
          | none => b.externalType }
    Except.ok { st with blocks := alPut blockId b2 st.blocks }

/-- Modelled from the spec: `deserialize_text_delta` parses the serialized
delta.  The verified claims do not depend on parse failures, so parsing is
total and keeps the payload opaque. -/
def deserializeTextDelta (delta : String) : Option (List String) :=
  some [delta]

/-- Modelled from the spec: `TextOperation::create_text_with_txn` creates an
empty text under the external id. -/
def createText (st : DocState) (textId : String) : DocState :=
  { st with textMap := alPut textId [] st.textMap }

/-- Modelled from the spec: `TextOperation::apply_delta_with_txn` applies a
delta to the text stored under the external id. -/
def applyDelta (st : DocState) (textId : String) (delta : List String) :
    DocState :=
  { st with
    textMap :=
      alPut textId ((alGet textId st.textMap).getD [] ++ delta) st.textMap }

/-- Modelled from the spec: `TextOperation::delete_text_with_txn` removes
the text stored under the external id. -/
def deleteText (st : DocState) (textId : String) : DocState :=
  { st with textMap := Alist.alRemove textId st.textMap }

/-- `Document::create_text_with_txn` (lines 132-140). -/
def createTextWithTxn (st : DocState) (textId : String) (delta : String) :
    DocState :=
  let parsed := deserializeTextDelta delta
  let st2 := createText st textId
  match parsed with
  | some d => applyDelta st2 textId d
  | none => st2

/-- `Document::apply_text_delta_with_txn` (lines 152-163). -/
def applyTextDeltaWithTxn (st : DocState) (textId : String) (delta : String) :
    DocState :=
  match deserializeTextDelta delta with
  | some d => applyDelta st textId d
  | none => applyDelta st textId []

/-- `Document::insert_block_to_parent` (lines 208-244): fail when the
block's parent id is empty or the parent block is absent; otherwise insert
the block id into the parent's children list after `prev_id` (or at index 0
when `prev_id` is absent or not found). -/
def insertBlockToParent (st : DocState) (block : Block)
    (prevId : Option String) : Except DocumentError (Block × DocState) := do
  let parentId := block.parent
  if parentId = "" then
    throw DocumentError.parentIsNotFound
  let parent ←
    match getBlock st parentId with
    | some parent => pure parent
    | none => throw DocumentError.parentIsNotFound
  let parentChildrenId := parent.children
  let index :=
    ((prevId.bind fun prevId =>
        getChildIndex st parentChildrenId prevId).map
      fun prevIndex => prevIndex + 1).getD 0
  let st2 := insertChild st parentChildrenId block.id index
  match getBlock st2 block.id with
  | some b => pure (b, st2)
  | none => throw DocumentError.blockIsNotFound

/-- `Document::insert_block` (lines 197-205): create the block in the
`blocks` map, then attach it to its parent. -/
def insertBlock (st : DocState) (block : Block) (prevId : Option String) :
    Except DocumentError (Block × DocState) := do
  let (block, st2) ← createBlock st block
  insertBlockToParent st2 block prevId

/-- `Document::delete_block_from_parent` (lines 290-303). -/
def deleteBlockFromParent (st : DocState) (blockId parentId : String) :
    DocState :=
  match getBlock st parentId with
  | some parent => deleteChild st parent.children blockId
  | none => st

/-- `Document::delete_block` (lines 251-287): recursively delete the
children (ignoring per-child errors, as the source does with
`unwrap_or_default`), remove the block from its parent's children list,
delete its text, and remove it from the `blocks` map.  The recursion is
bounded by `fuel`; the spec's acyclicity invariant makes the number of
blocks a sufficient bound. -/
def deleteBlock (fuel : Nat) (st : DocState) (blockId : String) :
    Except DocumentError DocState :=
  match fuel with
  | 0 => Except.error DocumentError.internal
  | fuel + 1 =>
    match getBlock st blockId with
    | none => Except.error DocumentError.blockIsNotFound
    | some block =>
      let children := childrenOf st block.children
      let st2 := children.foldl
        (fun s child =>
          match deleteBlock fuel s child with
          | Except.ok s2 => s2
          | Except.error _ => s)
        st
      let st3 := deleteBlockFromParent st2 blockId block.parent
      let st4 :=
        match block.externalId with
        | some externalId => deleteText st3 externalId
        | none => st3
      Except.ok { st4 with blocks := Alist.alRemove blockId st4.blocks }

/-- `Document::update_block_data` (lines 306-324). -/
def updateBlockData (st : DocState) (blockId : String)
    (data : List (String × String)) : Except DocumentError DocState :=
  match getBlock st blockId with
  | none => Except.error DocumentError.blockIsNotFound
  | some block =>
    setBlock st block.id (some data) none block.externalId block.externalType

/-- `Document::move_block` (lines 327-389): check that the target parent,
the block and its current parent exist; delete the block from the old
parent's children list; insert it into the new parent's children list after
`prev_id` (or at index 0 when `prev_id` is absent or not found); update the
block's parent field. -/
def moveBlock (st : DocState) (blockId : String) (parentId : Option String)
    (prevId : Option String) : Except DocumentError DocState := do
  let newParent ←
    match parentId with
    | some parentId =>
      match getBlock st parentId with
      | some parent => pure parent
      | none => throw DocumentError.parentIsNotFound
    | none => throw DocumentError.parentIsNotFound
  let block ←
    match getBlock st blockId with
    | some block => pure block
    | none => throw DocumentError.blockIsNotFound
  let oldParent ←
    match getBlock st block.parent with
    | some parent => pure parent
    | none => throw DocumentError.parentIsNotFound
  let newParentChildrenId := newParent.children
  let oldParentChildrenId := oldParent.children
  -- delete from the old parent first: the block may move within one parent
  let st2 := deleteChild st oldParentChildrenId blockId
  let index :=
    ((prevId.bind fun prevId =>
        getChildIndex st2 newParentChildrenId prevId).map
      fun prevIndex => prevIndex + 1).getD 0
  let st3 := insertChild st2 newParentChildrenId blockId index
  setBlock st3 blockId (some block.data) (some newParent.id) none none

/-- The new parent's children list at the moment `move_block` computes the
insertion index: the block has just been deleted from the old parent, so a
move within one parent sees the list without the block. -/
def moveBase (st : DocState) (np op : Block) (blockId : String) :
    List String :=
  if np.children = op.children then (childrenOf st op.children).erase blockId
  else childrenOf st np.children

/-- The insertion index used by `move_block` and `insert_block_to_parent`:
the index of `prev_id` plus one, or 0 when `prev_id` is absent or not found
in the list. -/
def moveIndex (base : List String) (prevId : Option String) : Nat :=
  ((prevId.bind fun p => base.findIdx? fun c => c = p).map
    fun i => i + 1).getD 0

/-- `BlockActionType` (sum type of the action log). -/
inductive BlockActionType : Type where
  | insert
  | update
  | delete
  | move
  | insertText
  | applyTextDelta
  deriving DecidableEq, Repr

/-- `BlockActionPayload`. -/
structure BlockActionPayload : Type where
  block : Option Block := none
  parentId : Option String := none
  prevId : Option String := none
  textId : Option String := none
  delta : Option String := none
  deriving DecidableEq, Repr

/-- `BlockAction`. -/
structure BlockAction : Type where
  action : BlockActionType
  payload : BlockActionPayload
  deriving DecidableEq, Repr

/-- `Document::handle_insert_action` (lines 560-574): when the payload block
is present, default its empty parent from `payload.parent_id` and insert. -/
def handleInsertAction (st : DocState) (payload : BlockActionPayload) :
    Except DocumentError DocState :=
  match payload.block with
  | some block =>
    let block :=
      if block.parent = "" ∧ payload.parentId.isSome then
        { block with parent := payload.parentId.getD "" }
      else block
    (insertBlock st block payload.prevId).map (fun r => r.2)
  | none => Except.error DocumentError.blockIsNotFound

/-- `Document::handle_update_action` (lines 576-587). -/
def handleUpdateAction (st : DocState) (payload : BlockActionPayload) :
    Except DocumentError DocState :=
  match payload.block with
  | some block => updateBlockData st block.id block.data
  | none => Except.error DocumentError.blockIsNotFound

/-- `Document::handle_delete_action` (lines 589-599). -/
def handleDeleteAction (st : DocState) (payload : BlockActionPayload) :
    Except DocumentError DocState :=
  match payload.block with
  | some block => deleteBlock (st.blocks.length + 1) st block.id
  | none => Except.error DocumentError.blockIsNotFound

/-- `Document::handle_move_action` (lines 601-611). -/
def handleMoveAction (st : DocState) (payload : BlockActionPayload) :
    Except DocumentError DocState :=
  match payload.block with
  | some block => moveBlock st block.id payload.parentId payload.prevId
  | none => Except.error DocumentError.blockIsNotFound

/-- `Document::handle_insert_text_action` (lines 613-628). -/
def handleInsertTextAction (st : DocState) (payload : BlockActionPayload) :
    Except DocumentError DocState :=
  match payload.textId with
  | some textId =>
    match payload.delta with
    | some delta => Except.ok (createTextWithTxn st textId delta)
    | none => Except.error DocumentError.textActionParamsError
  | none => Except.error DocumentError.textActionParamsError

/-- `Document::handle_apply_text_delta_action` (lines 630-645). -/
def handleApplyTextDeltaAction (st : DocState) (payload : BlockActionPayload) :
    Except DocumentError DocState :=
  match payload.textId with
  | some textId =>
    match payload.delta with
    | some delta => Except.ok (applyTextDeltaWithTxn st textId delta)
    | none => Except.error DocumentError.textActionParamsError
  | none => Except.error DocumentError.textActionParamsError

/-- Dispatch of one action inside `Document::apply_action`. -/
def handleAction (st : DocState) (a : BlockAction) :
    Except DocumentError DocState :=
  match a.action with
  | .insert => handleInsertAction st a.payload
  | .update => handleUpdateAction st a.payload
  | .delete => handleDeleteAction st a.payload
  | .move => handleMoveAction st a.payload
  | .insertText => handleInsertTextAction st a.payload
  | .applyTextDelta => handleApplyTextDeltaAction st a.payload

/-- `Document::apply_action` (lines 166-187): the actions run inside one
write transaction; on the first failing action the error is logged with
`tracing::error!` and the closure returns early.  Returning from the
closure commits the transaction, so the effects of the actions already
applied are kept, and `apply_action` returns `()` (no error reaches the
caller); the embedding therefore returns the committed state. -/
def applyAction (st : DocState) (actions : List BlockAction) : DocState :=
  match actions with
  | [] => st
  | a :: rest =>
    match handleAction st a with
    | Except.ok st2 => applyAction st2 rest
    | Except.error _ => st

/-- All actions of the list succeed in sequence; returns the final state. -/
def applyAllOk (st : DocState) : List BlockAction → Option DocState
  | [] => some st
  | a :: rest =>
    match handleAction st a with
    | Except.ok st2 => applyAllOk st2 rest
    | Except.error _ => none

end Doc

/-! ## Database rows and the block engine
(collab-database/src/rows/cell.rs, rows/row_meta.rs, blocks/block.rs) -/

namespace Db

open Alist

/-- Values stored in a cell's key/value map (`lib0` values; the verified
properties only distinguish integers, used for timestamps, from the rest). -/
inductive DbVal : Type where
  | i (n : Int)
  | s (v : String)
  deriving DecidableEq, Repr

/-- A cell is an `AnyMap`: an opaque key/value map. -/
abbrev Cell := List (String × DbVal)

/-- The stored form of one cell (the `MapRef` under the field id). -/
abbrev CellMap := List (String × DbVal)

/-- Key of the creation timestamp (`CREATED_AT` in `rows/row.rs`). -/
def CREATED_AT : String := "created_at"

/-- Key of the modification timestamp (`LAST_MODIFIED` in `rows/row.rs`). -/
def LAST_MODIFIED : String := "last_modified"

/-- `AnyMap::fill_map_ref`: insert every entry of the cell payload into the
stored map. -/
def fillMapRef (cell : Cell) (m : CellMap) : CellMap :=
  cell.foldl (fun acc kv => alPut kv.1 kv.2 acc) m

/-- `CellsUpdate::insert_cell` (rows/cell.rs lines 81-90): get or create the
cell map under the field id; stamp `created_at` only when absent; write the
cell payload; restamp `last_modified`.  The source stamps with
`timestamp()` (defined in `database.rs`, not among the studied sources, and
modelled from the spec as the current wall-clock time); the embedding takes
the clock value `now` as an explicit argument. -/
def insertCell (cells : List (String × CellMap)) (key : String) (cell : Cell)
    (now : Int) : List (String × CellMap) :=
  let cur := (alGet key cells).getD []
  let cur2 :=
    if (alGet CREATED_AT cur).isNone then alPut CREATED_AT (.i now) cur
    else cur
  let cur3 := fillMapRef cell cur2
  let cur4 := alPut LAST_MODIFIED (.i now) cur3
  alPut key cur4 cells

/-- A sequence of writes to the same cell: each entry is the payload written
together with the clock value at that write. -/
def writeSeq (cells : List (String × CellMap)) (key : String) :
    List (Cell × Int) → List (String × CellMap)
  | [] => cells
  | (c, t) :: rest => writeSeq (insertCell cells key c t) key rest

/-- `RowMeta` (rows/row_meta.rs lines 57-61). -/
structure RowMeta : Type where
  iconUrl : Option String
  coverUrl : Option String
  deriving DecidableEq, Repr

/-- `RowMeta::empty` (rows/row_meta.rs lines 64-69). -/
def RowMeta.empty : RowMeta :=
  { iconUrl := none, coverUrl := none }

/-- A row entry (spec data model: row id, height, visibility, timestamps,
cells). -/
structure Row : Type where
  id : String
  height : Int := 60
  visibility : Bool := true
  createdAt : Int := 0
  lastModified : Int := 0
  cells : List (String × CellMap) := []
  deriving DecidableEq, Repr

/-- Modelled from the spec: `Row::empty` (rows/row.rs, not among the
studied sources) is "a row with that id and no cells". -/
def Row.empty (rowId : String) : Row :=
  { id := rowId, cells := [] }

/-- Modelled from the spec: a `DatabaseRow` session ("an isolated CRDT
document whose root contains one row's fields, cells, and metadata",
rows/row.rs, not among the studied sources).  `get_row`/`get_row_meta`
return `none` when the underlying document holds no row data. -/
structure DatabaseRow : Type where
  rowId : String
  row : Option Row
  meta : Option RowMeta
  deriving DecidableEq, Repr

/-- Modelled from the spec: `DatabaseRow::update` runs the mutator inside a
row write transaction. -/
def DatabaseRow.update (dr : DatabaseRow) (f : Row → Row) : DatabaseRow :=
  { dr with row := dr.row.map f }

/-- Modelled from the spec: `DatabaseRow::update_meta` runs the mutator
inside a row write transaction. -/
def DatabaseRow.updateMeta (dr : DatabaseRow) (f : RowMeta → RowMeta) :
    DatabaseRow :=
  { dr with meta := dr.meta.map f }

/-- A background task of the block engine (`BlockTask`).  `senders` counts
the result channels attached to the task. -/
inductive BlockTask : Type where
  | fetchRow (rowId : String) (seq : Nat) (senders : Nat)
  | batchFetchRow (rowIds : List String) (seq : Nat) (senders : Nat)
  deriving DecidableEq, Repr

/-- Whether a task is the single-row fetch for `rowId`. -/
def BlockTask.isFetchFor (rowId : String) : BlockTask → Bool
  | .fetchRow r _ _ => r = rowId
  | .batchFetchRow _ _ _ => false

/-- Attach `extra` more result senders to the queued single-row fetch task
for `rowId` (other tasks are unchanged). -/
def attachSender (rowId : String) (extra : Nat) : BlockTask → BlockTask
  | .fetchRow r s2 n =>
    if r = rowId then .fetchRow r s2 (n + extra) else .fetchRow r s2 n
  | t => t

/-- Modelled from the spec: `BlockTaskController::add_task`
(blocks/task_controller.rs, not among the studied sources).  "Tasks with
the same (tenant, row_id) coalesce: the later task's `sender` is attached
to the earlier task's completion list"; otherwise the task is appended to
the queue. -/
def addTask (tasks : List BlockTask) : BlockTask → List BlockTask
  | .fetchRow rowId seq senders =>
    if tasks.any (BlockTask.isFetchFor rowId) then
      tasks.map (attachSender rowId senders)
    else tasks ++ [.fetchRow rowId seq senders]
  | t => tasks ++ [t]

/-- Number of queued single-row fetch tasks for `rowId`. -/
def fetchTaskCount (tasks : List BlockTask) (rowId : String) : Nat :=
  (tasks.filter (BlockTask.isFetchFor rowId)).length

/-- The state of a `Block` (blocks/block.rs): whether the weak database
handle is still alive, the LRU row cache (most recently used first, bounded
by `cap`), the persisted row documents in the KV store, the task queue and
the sequence counter. -/
structure BlockState : Type where
  dbAlive : Bool := true
  cache : List (String × DatabaseRow) := []
  cap : Nat := 1000
  kv : List (String × DatabaseRow) := []
  tasks : List BlockTask := []
  seq : Nat := 0
  deriving DecidableEq, Repr

/-- `LruCache::get`: return the entry and promote it to most recently
used. -/
def cacheGet (c : List (String × DatabaseRow)) (k : String) :
    Option DatabaseRow × List (String × DatabaseRow) :=
  match alGet k c with
  | some v => (some v, (k, v) :: alRemove k c)
  | none => (none, c)

/-- `LruCache::put`: insert at the most-recently-used position, evicting
the least recently used entry when the capacity is exceeded. -/
def cachePut (cap : Nat) (c : List (String × DatabaseRow)) (k : String)
    (v : DatabaseRow) : List (String × DatabaseRow) :=
  let c2 := (k, v) :: alRemove k c
  if cap < c2.length then c2.dropLast else c2

/-- `Block::get_or_init_row` (lines 193-233): return the cached session;
on a miss, open the persisted document when the row exists in the KV store
and insert it into the cache; otherwise enqueue a single-row fetch task and
return `none`.  Returns `none` immediately when the weak database handle is
dead. -/
def getOrInitRow (st : BlockState) (rowId : String) :
    Option DatabaseRow × BlockState :=
  if !st.dbAlive then (none, st)
  else
    match cacheGet st.cache rowId with
    | (some row, c2) => (some row, { st with cache := c2 })
    | (none, _) =>
      match alGet rowId st.kv with
      | some stored =>
        (some stored, { st with cache := cachePut st.cap st.cache rowId stored })
      | none =>
        (none,
          { st with
            tasks := addTask st.tasks (.fetchRow rowId st.seq 1)
            seq := st.seq + 1 })

/-- `Block::get_row` (lines 125-130): the session's row, or an empty row
with the given id when the session or its row data is unavailable. -/
def getRow (st : BlockState) (rowId : String) : Row × BlockState :=
  match getOrInitRow st rowId with
  | (some dr, st2) =>
    match dr.row with
    | some row => (row, st2)
    | none => (Row.empty rowId, st2)
  | (none, st2) => (Row.empty rowId, st2)

/-- `Block::get_row_meta` (lines 132-137): the session's row meta, with
`RowMeta::empty` substituted when the session or its meta is unavailable. -/
def getRowMeta (st : BlockState) (rowId : String) :
    Option RowMeta × BlockState :=
  match getOrInitRow st rowId with
  | (some dr, st2) =>
    match dr.meta with
    | some meta => (some meta, st2)
    | none => (some RowMeta.empty, st2)
  | (none, st2) => (some RowMeta.empty, st2)

/-- `Block::update_row` (lines 172-180): look the row up in the cache only;
when absent, nothing happens; when present, run the mutator inside the row
write transaction. -/
def updateRow (st : BlockState) (rowId : String) (f : Row → Row) :
    BlockState :=
  match cacheGet st.cache rowId with
  | (none, _) => st
  | (some dr, c2) => { st with cache := alPut rowId (dr.update f) c2 }

/-- `Block::update_row_meta` (lines 182-190): same discipline as
`update_row`, for the row meta. -/
def updateRowMeta (st : BlockState) (rowId : String) (f : RowMeta → RowMeta) :
    BlockState :=
  match cacheGet st.cache rowId with
  | (none, _) => st
  | (some dr, c2) => { st with cache := alPut rowId (dr.updateMeta f) c2 }

end Db

/-! ## Folder migration (collab-folder/src/folder_migration.rs) -/

namespace FolderM

open Alist

/-- One record of the legacy `workspaces` array: a map that may carry `id`,
`name` and `created_at` entries. -/
structure WorkspaceRec : Type where
  id : Option String := none
  name : Option String := none
  createdAt : Option Int := none
  deriving DecidableEq, Repr

/-- `Workspace`. -/
structure Workspace : Type where
  id : String
  name : String
  createdAt : Int
  childViews : List String
  deriving DecidableEq, Repr

/-- A view record of the current view tree (the fields relevant to the
migration). -/
structure View : Type where
  id : String
  name : String
  createdAt : Int
  deriving DecidableEq, Repr

/-- Modelled from the spec: `View::from(Workspace)` (collab-folder
workspace module, not among the studied sources) carries the workspace's
identity over to a view record. -/
def View.fromWorkspace (w : Workspace) : View :=
  { id := w.id, name := w.name, createdAt := w.createdAt }

/-- The folder state: the legacy `workspaces` key (absent when the root map
has no such key), the legacy `FAVORITES_V1` key, the current views map and
the view relations (view id → ordered child ids). -/
structure FolderState : Type where
  workspacesKey : Option (List WorkspaceRec) := none
  favoritesV1 : Option (List String) := none
  views : List (String × View) := []
  relations : List (String × List String) := []
  deriving DecidableEq, Repr

/-- `to_workspace_with_txn` (lines 57-81): requires the `id` entry; `name`
and `created_at` default; the child views are read from the current view
relations under the workspace id. -/
def toWorkspace (st : FolderState) (rec : WorkspaceRec) : Option Workspace :=
  rec.id.map fun id =>
    { id := id
      name := rec.name.getD ""
      createdAt := rec.createdAt.getD 0
      childViews := (alGet id st.relations).getD [] }

/-- Modelled from the spec: `ViewsMap::insert_view_with_txn` (collab-folder
views module, not among the studied sources).  The migration inserts "a
single root workspace view" into the current view tree; the views map is
keyed by view id, so inserting overwrites the binding under that id, and a
root view is attached to no parent list. -/
def insertView (st : FolderState) (v : View) : FolderState :=
  { st with views := alPut v.id v st.views }

/-- `Folder::migrate_workspace_to_view` (lines 32-54): read the legacy
`workspaces` array (returning early when the key is absent); convert each
record; when none converts, only log an error; otherwise take the last
workspace (`Vec::pop`) and insert it as a view into the current tree.  The
legacy keys are only read. -/
def migrateWorkspaceToView (st : FolderState) : FolderState :=
  match st.workspacesKey with
  | none => st
  | some arr =>
    let ws := arr.filterMap (toWorkspace st)
    match ws.getLast? with
    | none => st
    | some w => insertView st (View.fromWorkspace w)

end FolderM

/-! ## Concrete fixtures used by witnesses and counterexamples -/

namespace Ex

/-- A mergeable, deferrable pending message. -/
def mA : Sink.PendingMessage :=
  { msgId := 1, state := .pending, mergeable := true, deferrable := true,
    isInit := false, size := 10 }

/-- A non-mergeable, deferrable pending message. -/
def mB : Sink.PendingMessage :=
  { msgId := 2, state := .pending, mergeable := false, deferrable := true,
    isInit := false, size := 10 }

/-- A non-deferrable (urgent) pending message. -/
def mU : Sink.PendingMessage :=
  { msgId := 3, state := .pending, mergeable := false, deferrable := false,
    isInit := false, size := 10 }

/-- Default sink configuration (`Asap`, merge cap 4096). -/
def cfgA : Sink.SinkConfig := { maxMergeSize := 4096, strategy := .asap }

/-- The root page block. -/
def pageBlock : Doc.Block := { id := "page", parent := "", children := "page_ch" }

/-- A fresh block to insert under the page. -/
def b1 : Doc.Block := { id := "b1", parent := "page", children := "b1_ch" }

/-- A document holding only the root page block. -/
def doc0 : Doc.DocState :=
  { pageId := some "page", blocks := [("page", pageBlock)],
    childrenMap := [("page_ch", [])] }

/-- Insert action for `b1` (succeeds on `doc0`). -/
def a1 : Doc.BlockAction := { action := .insert, payload := { block := some b1 } }

/-- Insert action with no block in the payload (always fails). -/
def aBad : Doc.BlockAction := { action := .insert, payload := {} }

/-- Blocks of the spec scenario "B1 → C1 and B2 (empty)". -/
def mvB1 : Doc.Block := { id := "B1", parent := "page", children := "B1_ch" }

/-- Target parent of the scenario move. -/
def mvB2 : Doc.Block := { id := "B2", parent := "page", children := "B2_ch" }

/-- The moved child of the scenario. -/
def mvC1 : Doc.Block := { id := "C1", parent := "B1", children := "C1_ch" }

/-- Document of the scenario: `B1 → C1`, `B2` empty. -/
def docMove : Doc.DocState :=
  { pageId := some "page"
    blocks := [("page", pageBlock), ("B1", mvB1), ("B2", mvB2), ("C1", mvC1)]
    childrenMap :=
      [("page_ch", ["B1", "B2"]), ("B1_ch", ["C1"]), ("B2_ch", []),
        ("C1_ch", [])] }

/-- A materialized row session for row `r1`. -/
def drEx : Db.DatabaseRow :=
  { rowId := "r1", row := some { id := "r1" },
    meta := some { iconUrl := some "icon", coverUrl := none } }

/-- Block engine state with row `r1` cached. -/
def stCached : Db.BlockState := { cache := [("r1", drEx)] }

/-- Fresh block engine state (nothing cached, empty KV, no tasks). -/
def stEmptyDb : Db.BlockState := {}

/-- An ordinary cell payload (no timestamp keys). -/
def cellPayload : Db.Cell := [("data", .s "hello world")]

/-- A concrete row mutator. -/
def fEx : Db.Row → Db.Row := fun r => { r with height := 99 }

/-- A concrete row-meta mutator. -/
def gEx : Db.RowMeta → Db.RowMeta := fun m => { m with coverUrl := some "cover" }

end Ex

/-! ## Claim theorems -/

/-- Claim C3: for every call `ack_msg(object_id, id)` on the outbound sink,
when the id of the peeked head message equals `id` that message's state is
set to `Done` and the runner is notified; otherwise the ack is ignored and
the pending-message queue is left unchanged; the invariant
`head.id ≥ ack.id` is the condition evaluated by the assertion. -/
theorem ack_msg_correlates_by_id (head : Sink.PendingMessage)
    (rest : Sink.Queue) (msgId : Nat) :
    (head.msgId = msgId →
      (Sink.ackMsg (head :: rest) msgId).queue = head.setState .done :: rest ∧
      (Sink.ackMsg (head :: rest) msgId).notified = true) ∧
    (head.msgId ≠ msgId →
      (Sink.ackMsg (head :: rest) msgId).queue = head :: rest ∧
      (Sink.ackMsg (head :: rest) msgId).notified = false) ∧
    (Sink.ackMsg (head :: rest) msgId).assertionOk
      = decide (head.msgId ≥ msgId) := by
  by_cases h : head.msgId = msgId <;> simp [Sink.ackMsg, h]

/-- Witness for C3: an ack matching the head id marks it `Done` and
notifies; a non-matching ack leaves the queue unchanged. -/
theorem ack_msg_correlates_by_id_witness :
    ((Sink.ackMsg [Ex.mA] 1).queue = [Ex.mA.setState .done] ∧
      (Sink.ackMsg [Ex.mA] 1).notified = true) ∧
    ((Sink.ackMsg [Ex.mB] 1).queue = [Ex.mB] ∧
      (Sink.ackMsg [Ex.mB] 1).notified = false) :=
  ⟨(ack_msg_correlates_by_id Ex.mA [] 1).1 (by decide),
    (ack_msg_correlates_by_id Ex.mB [] 1).2.1 (by decide)⟩

/-- A tick on a queue whose top message is pending always hands a message
to the transport. -/
theorem trySendPrep_pending_isSome (cfg : Sink.SinkConfig)
    (m : Sink.PendingMessage) (rest : Sink.Queue)
    (hp : m.state = .pending) :
    (Sink.trySendPrep cfg (m :: rest)).1.isSome = true := by
  have h1 : m.state.isDone = false := by rw [hp]; rfl
  have h2 : m.state.isProcessing = false := by rw [hp]; rfl
  unfold Sink.trySendPrep
  rcases hx : (if m.mergeable then
      Sink.mergeLoop cfg.maxMergeSize m rest else (m, rest)) with ⟨s, q2⟩
  simp [h1, h2, hx]

/-- Claim C9: with strategy `FixInterval(d)`, a deferrable top message and
`elapsed < d`, `process_next_msg` returns without sending and without
touching the queue; with `elapsed ≥ d` the (pending) message is sent on
this tick and the interval timer resets; a non-deferrable top message is
sent immediately regardless of the elapsed time. -/
theorem process_next_msg_strategy (maxSize d elapsed : Nat)
    (m : Sink.PendingMessage) (rest : Sink.Queue) :
    (m.deferrable = true → elapsed < d →
      Sink.processNextMsg ⟨maxSize, .fixInterval d⟩ elapsed (m :: rest)
        = (none, m :: rest, elapsed)) ∧
    (m.deferrable = true → d ≤ elapsed → m.state = .pending →
      (Sink.processNextMsg ⟨maxSize, .fixInterval d⟩ elapsed
        (m :: rest)).1.isSome = true ∧
      (Sink.processNextMsg ⟨maxSize, .fixInterval d⟩ elapsed
        (m :: rest)).2.2 = 0) ∧
    (m.deferrable = false → m.state = .pending →
      (Sink.processNextMsg ⟨maxSize, .fixInterval d⟩ elapsed
        (m :: rest)).1.isSome = true) := by
  refine ⟨fun hd hlt => ?_, fun hd hge hp => ?_, fun hd hp => ?_⟩
  · simp [Sink.processNextMsg, hd, hlt]
  · have hnlt : ¬ elapsed < d := Nat.not_lt.mpr hge
    have hs := trySendPrep_pending_isSome ⟨maxSize, .fixInterval d⟩ m rest hp
    rcases hx : Sink.trySendPrep ⟨maxSize, .fixInterval d⟩ (m :: rest)
      with ⟨sent, q2⟩
    rw [hx] at hs
    constructor <;> simp [Sink.processNextMsg, hd, hnlt, hx, hs]
  · have hs := trySendPrep_pending_isSome ⟨maxSize, .fixInterval d⟩ m rest hp
    rcases hx : Sink.trySendPrep ⟨maxSize, .fixInterval d⟩ (m :: rest)
      with ⟨sent, q2⟩
    rw [hx] at hs
    simp [Sink.processNextMsg, hd, hx, hs]

/-- Witness for C9: with `d = 100`, an elapsed time of 5 defers the
deferrable top message, an elapsed time of 100 sends it and resets the
timer, and an urgent message is sent at elapsed time 5. -/
theorem process_next_msg_strategy_witness :
    (Sink.processNextMsg ⟨4096, .fixInterval 100⟩ 5 [Ex.mA]
      = (none, [Ex.mA], 5)) ∧
    ((Sink.processNextMsg ⟨4096, .fixInterval 100⟩ 100 [Ex.mA]).1.isSome
        = true ∧
      (Sink.processNextMsg ⟨4096, .fixInterval 100⟩ 100 [Ex.mA]).2.2 = 0) ∧
    (Sink.processNextMsg ⟨4096, .fixInterval 100⟩ 5 [Ex.mU]).1.isSome
      = true :=
  ⟨(process_next_msg_strategy 4096 100 5 Ex.mA []).1 (by decide) (by decide),
    (process_next_msg_strategy 4096 100 100 Ex.mA []).2.1 (by decide)
      (by decide) (by decide),
    (process_next_msg_strategy 4096 100 5 Ex.mU []).2.2 (by decide)
      (by decide)⟩

/-- Claim C10: `Block::get_row_meta` never returns `None`; when the session
or its meta is unavailable it substitutes `RowMeta::empty` (no icon url, no
cover url). -/
theorem get_row_meta_never_none (st : Db.BlockState) (rowId : String) :
    ((Db.getRowMeta st rowId).1.isSome = true) ∧
    (((Db.getOrInitRow st rowId).1.bind (fun dr => dr.meta)) = none →
      (Db.getRowMeta st rowId).1 = some Db.RowMeta.empty) := by
  unfold Db.getRowMeta
  rcases hx : Db.getOrInitRow st rowId with ⟨dr?, st2⟩
  cases dr? with
  | none => simp
  | some dr => cases hm : dr.meta <;> simp [hm]

/-- Witness for C10: on a fresh block engine, the meta of a row absent from
cache and KV is the empty meta. -/
theorem get_row_meta_never_none_witness :
    (Db.getRowMeta Ex.stEmptyDb "r1").1 = some Db.RowMeta.empty :=
  (get_row_meta_never_none Ex.stEmptyDb "r1").2 (by decide)

/-- Counterexample to C2 as stated: with a mergeable head `mA` and a
non-mergeable next message `mB`, one tick pops `mB`, fails to merge it and
drops it: the queue afterwards holds only the in-flight message, and
message id 2 is gone from the queue (so it can never be delivered). -/
theorem merge_stop_message_lost_cex :
    (Sink.trySendPrep Ex.cfgA [Ex.mA, Ex.mB]).2 =
      [{ msgId := 1, state := .processing, mergeable := true,
          deferrable := true, isInit := false, size := 10 }] ∧
    ¬ (Ex.mB.msgId ∈
        (Sink.trySendPrep Ex.cfgA [Ex.mA, Ex.mB]).2.map
          Sink.PendingMessage.msgId) := by
  decide

/-- Claim C1 (amended): `apply_action` runs the actions in order inside
one write transaction; the first failing action stops processing, the
effects of the actions before it are committed and persist, the failing
and subsequent actions have no effect, and the error is logged but not
returned to the caller (the function's result is the committed state). -/
theorem apply_action_commits_prefix_on_error (st st1 : Doc.DocState)
    (pre : List Doc.BlockAction) (bad : Doc.BlockAction)
    (post : List Doc.BlockAction) (e : Doc.DocumentError)
    (hpre : Doc.applyAllOk st pre = some st1)
    (hbad : Doc.handleAction st1 bad = Except.error e) :
    Doc.applyAction st (pre ++ bad :: post) = st1 := by
  induction pre generalizing st with
  | nil =>
    unfold Doc.applyAllOk at hpre
    cases hpre
    simp [Doc.applyAction, hbad]
  | cons a rest ih =>
    unfold Doc.applyAllOk at hpre
    cases hx : Doc.handleAction st a with
    | ok st2 =>
      rw [hx] at hpre
      simpa [Doc.applyAction, hx] using ih st2 hpre
    | error e2 =>
      rw [hx] at hpre
      cases hpre

/-- Witness for C1 (amended): on `doc0`, the prefix `[a1]` succeeds, the
next action fails, and applying `[a1, aBad]` commits exactly the prefix. -/
theorem apply_action_commits_prefix_on_error_witness :
    Doc.applyAllOk Ex.doc0 [Ex.a1] = some (Doc.applyAction Ex.doc0 [Ex.a1]) ∧
    Doc.handleAction (Doc.applyAction Ex.doc0 [Ex.a1]) Ex.aBad
      = Except.error Doc.DocumentError.blockIsNotFound ∧
    Doc.applyAction Ex.doc0 ([Ex.a1] ++ Ex.aBad :: [])
      = Doc.applyAction Ex.doc0 [Ex.a1] :=
  ⟨by decide, by decide,
    apply_action_commits_prefix_on_error Ex.doc0 (Doc.applyAction Ex.doc0 [Ex.a1])
      [Ex.a1] Ex.aBad [] Doc.DocumentError.blockIsNotFound
      (by decide) (by decide)⟩

/-- A failed merge means the popped message was not mergeable or the
merged payload would exceed the cap. -/
theorem merge_eq_none_iff (maxSize : Nat) (s m : Sink.PendingMessage)
    (h : s.merge maxSize m = none) :
    m.mergeable = false ∨ maxSize < s.size + m.size := by
  unfold Sink.PendingMessage.merge at h
  split at h
  · cases h
  · rename_i hc
    rcases Bool.and_eq_false_iff.mp (Bool.of_not_eq_true hc) with h1 | h1
    · exact Or.inl h1
    · exact Or.inr (by simpa using Nat.lt_of_not_le (by simpa using h1))

/-- Unfolding `absorb` over the head of the popped list. -/
theorem absorb_cons_of_merge (maxSize : Nat) (s m merged : Sink.PendingMessage)
    (pre : List Sink.PendingMessage) (h : s.merge maxSize m = some merged) :
    Sink.absorb maxSize s (m :: pre) = Sink.absorb maxSize merged pre := by
  unfold Sink.absorb
  simp [h]

/-- Characterization of the merge loop: either the whole queue is absorbed
into the in-flight message, or the loop stops at a message that fails to
merge, and that message has been popped and is gone from the queue. -/
theorem mergeLoop_spec (maxSize : Nat) (q : Sink.Queue) :
    ∀ s : Sink.PendingMessage,
    ((Sink.mergeLoop maxSize s q).2 = [] ∧
      Sink.absorb maxSize s q = some (Sink.mergeLoop maxSize s q).1) ∨
    (∃ pre dropped, q = pre ++ dropped :: (Sink.mergeLoop maxSize s q).2 ∧
      Sink.absorb maxSize s pre = some (Sink.mergeLoop maxSize s q).1 ∧
      (dropped.mergeable = false ∨
        maxSize < (Sink.mergeLoop maxSize s q).1.size + dropped.size)) := by
  induction q with
  | nil =>
    intro s
    left
    exact ⟨rfl, rfl⟩
  | cons m rest ih =>
    intro s
    cases hx : s.merge maxSize m with
    | some merged =>
      have hloop : Sink.mergeLoop maxSize s (m :: rest)
          = Sink.mergeLoop maxSize merged rest := by
        simp [Sink.mergeLoop, hx]
      rcases ih merged with ⟨h1, h2⟩ | ⟨pre, dropped, hdec, habs, hstop⟩
      · left
        rw [hloop, absorb_cons_of_merge maxSize s m merged rest hx]
        exact ⟨h1, h2⟩
      · right
        refine ⟨m :: pre, dropped, ?_, ?_, ?_⟩
        · rw [hloop]
          simpa using hdec
        · rw [hloop, absorb_cons_of_merge maxSize s m merged pre hx]
          exact habs
        · rw [hloop]
          exact hstop
    | none =>
      right
      have hloop : Sink.mergeLoop maxSize s (m :: rest) = (s, rest) := by
        simp [Sink.mergeLoop, hx]
      refine ⟨[], m, ?_, ?_, ?_⟩
      · rw [hloop]
        rfl
      · rw [hloop]
        rfl
      · rw [hloop]
        exact merge_eq_none_iff maxSize s m hx

/-- Claim C2 (amended): on a tick whose popped top message is mergeable,
the sink repeatedly pops the next top message and merges it into the
in-flight one, stopping when a pop fails to merge (non-mergeable message or
merged payload over `max_merge_size`) or when the queue empties; the
in-flight message is marked `Processing` and pushed back at the head, but a
message at which merging stops has already been popped and is dropped from
the queue (it is not delivered later). -/
theorem merge_tick_drops_stopping_message (cfg : Sink.SinkConfig)
    (m : Sink.PendingMessage) (rest : Sink.Queue)
    (hp : m.state = .pending) (hm : m.mergeable = true) :
    ∃ s q2,
      Sink.mergeLoop cfg.maxMergeSize m rest = (s, q2) ∧
      Sink.trySendPrep cfg (m :: rest) =
        (some ⟨s.setState .processing, s.setState .processing :: q2,
          !s.isInit⟩, s.setState .processing :: q2) ∧
      ((q2 = [] ∧ Sink.absorb cfg.maxMergeSize m rest = some s) ∨
        (∃ pre dropped, rest = pre ++ dropped :: q2 ∧
          Sink.absorb cfg.maxMergeSize m pre = some s ∧
          (dropped.mergeable = false ∨
            cfg.maxMergeSize < s.size + dropped.size))) := by
  have h1 : m.state.isDone = false := by rw [hp]; rfl
  have h2 : m.state.isProcessing = false := by rw [hp]; rfl
  rcases hx : Sink.mergeLoop cfg.maxMergeSize m rest with ⟨s, q2⟩
  refine ⟨s, q2, rfl, ?_, ?_⟩
  · unfold Sink.trySendPrep
    simp [h1, h2, hm, hx, Sink.PendingMessage.setState]
  · have hspec := mergeLoop_spec cfg.maxMergeSize rest m
    rw [hx] at hspec
    exact hspec

/-- Witness for C2 (amended): queue `[mA, mB]` with mergeable `mA` and
non-mergeable `mB`: the loop stops at `mB`, which is popped and dropped. -/
theorem merge_tick_drops_stopping_message_witness :
    ∃ s q2,
      Sink.mergeLoop Ex.cfgA.maxMergeSize Ex.mA [Ex.mB] = (s, q2) ∧
      Sink.trySendPrep Ex.cfgA (Ex.mA :: [Ex.mB]) =
        (some ⟨s.setState .processing, s.setState .processing :: q2,
          !s.isInit⟩, s.setState .processing :: q2) ∧
      ((q2 = [] ∧ Sink.absorb Ex.cfgA.maxMergeSize Ex.mA [Ex.mB] = some s) ∨
        (∃ pre dropped, [Ex.mB] = pre ++ dropped :: q2 ∧
          Sink.absorb Ex.cfgA.maxMergeSize Ex.mA pre = some s ∧
          (dropped.mergeable = false ∨
            Ex.cfgA.maxMergeSize < s.size + dropped.size))) :=
  merge_tick_drops_stopping_message Ex.cfgA Ex.mA [Ex.mB]
    (by decide) (by decide)

/-- The migration is the identity when the legacy `workspaces` key is
absent. -/
theorem migrate_eq_id_of_no_key (st : FolderM.FolderState)
    (hw : st.workspacesKey = none) :
    FolderM.migrateWorkspaceToView st = st := by
  unfold FolderM.migrateWorkspaceToView
  rw [hw]

/-- Unfolding the migration when the legacy `workspaces` key is present:
the result is decided by the last convertible workspace record. -/
theorem migrate_eq_match (st : FolderM.FolderState)
    (arr : List FolderM.WorkspaceRec) (hw : st.workspacesKey = some arr) :
    FolderM.migrateWorkspaceToView st =
      match (arr.filterMap (FolderM.toWorkspace st)).getLast? with
      | none => st
      | some w => FolderM.insertView st (FolderM.View.fromWorkspace w) := by
  unfold FolderM.migrateWorkspaceToView
  rw [hw]

/-- Converting a legacy workspace record only reads the view relations. -/
theorem toWorkspace_eq_of_relations_eq (st st2 : FolderM.FolderState)
    (h : st.relations = st2.relations) :
    FolderM.toWorkspace st = FolderM.toWorkspace st2 := by
  funext rec
  unfold FolderM.toWorkspace
  rw [h]

/-- Claim C8: the legacy folder migration leaves the legacy `workspaces`
and `FAVORITES_V1` keys in place unmodified, and it is idempotent: running
`migrate_workspace_to_view` twice produces the same view tree as running it
once. -/
theorem migration_idempotent_legacy_untouched (st : FolderM.FolderState) :
    (FolderM.migrateWorkspaceToView st).workspacesKey = st.workspacesKey ∧
    (FolderM.migrateWorkspaceToView st).favoritesV1 = st.favoritesV1 ∧
    FolderM.migrateWorkspaceToView (FolderM.migrateWorkspaceToView st)
      = FolderM.migrateWorkspaceToView st := by
  cases hw : st.workspacesKey with
  | none =>
    have hid := migrate_eq_id_of_no_key st hw
    rw [hid, hid]
    exact ⟨hw, rfl, rfl⟩
  | some arr =>
    have hm := migrate_eq_match st arr hw
    cases hl : (arr.filterMap (FolderM.toWorkspace st)).getLast? with
    | none =>
      rw [hl] at hm
      rw [hm, hm]
      exact ⟨hw, rfl, rfl⟩
    | some w =>
      rw [hl] at hm
      refine ⟨?_, ?_, ?_⟩
      · rw [hm]
        exact hw
      · rw [hm]
        rfl
      · rw [hm]
        have hw2 : (FolderM.insertView st
            (FolderM.View.fromWorkspace w)).workspacesKey = some arr := hw
        have hrel : (FolderM.insertView st
            (FolderM.View.fromWorkspace w)).relations = st.relations := rfl
        have hm2 := migrate_eq_match
          (FolderM.insertView st (FolderM.View.fromWorkspace w)) arr hw2
        rw [toWorkspace_eq_of_relations_eq _ st hrel, hl] at hm2
        rw [hm2]
        unfold FolderM.insertView
        simp [Alist.alPut_alPut_same]

/-- Counterexample to C1 as stated: applying `[a1, aBad]` where `a1`
succeeds and `aBad` fails leaves `a1`'s effect in the committed document
(no rollback happens and no error is returned), while the claim requires
that none of the actions persist. -/
theorem apply_action_not_all_or_nothing_cex :
    Doc.handleAction (Doc.applyAction Ex.doc0 [Ex.a1]) Ex.aBad
      = Except.error Doc.DocumentError.blockIsNotFound ∧
    Doc.applyAction Ex.doc0 [Ex.a1, Ex.aBad] ≠ Ex.doc0 ∧
    Doc.getBlock (Doc.applyAction Ex.doc0 [Ex.a1, Ex.aBad]) "b1"
      = some Ex.b1 := by
  decide

/-- Writing a payload that avoids a key leaves that key's binding alone. -/
theorem alGet_fillMapRef_of_not_mem (cell : Db.Cell) (k : String) :
    ∀ m : Db.CellMap, (∀ kv ∈ cell, kv.1 ≠ k) →
    Alist.alGet k (Db.fillMapRef cell m) = Alist.alGet k m := by
  induction cell with
  | nil => intro m _; rfl
  | cons kv rest ih =>
    intro m h
    have hk : kv.1 ≠ k := h kv (List.mem_cons_self kv rest)
    have hrest : ∀ kv2 ∈ rest, kv2.1 ≠ k :=
      fun kv2 hm => h kv2 (List.mem_cons_of_mem kv hm)
    have hstep : Db.fillMapRef (kv :: rest) m
        = Db.fillMapRef rest (Alist.alPut kv.1 kv.2 m) := rfl
    rw [hstep, ih (Alist.alPut kv.1 kv.2 m) hrest,
      Alist.alGet_alPut_ne kv.1 k kv.2 m (Ne.symm hk)]

/-- Claim C4 (amended): a write through `CellsUpdate::insert_cell` whose
payload does not itself carry the timestamp keys sets `created_at` on the
first write and leaves it unchanged on every later write, and restamps
`last_modified` with the clock value of the write; since the clock is the
wall-clock time, over successive writes `last_modified` is nondecreasing
(not strictly increasing: two writes within one clock tick yield equal
stamps). -/
theorem insert_cell_timestamps (cells : List (String × Db.CellMap))
    (key : String) (cell : Db.Cell) (now : Int)
    (hclean : ∀ kv ∈ cell, kv.1 ≠ Db.CREATED_AT ∧ kv.1 ≠ Db.LAST_MODIFIED) :
    (Alist.alGet Db.CREATED_AT ((Alist.alGet key cells).getD []) = none →
      Alist.alGet Db.CREATED_AT
          ((Alist.alGet key (Db.insertCell cells key cell now)).getD [])
        = some (.i now)) ∧
    (∀ t, Alist.alGet Db.CREATED_AT ((Alist.alGet key cells).getD []) = some t →
      Alist.alGet Db.CREATED_AT
          ((Alist.alGet key (Db.insertCell cells key cell now)).getD [])
        = some t) ∧
    (Alist.alGet Db.LAST_MODIFIED
        ((Alist.alGet key (Db.insertCell cells key cell now)).getD [])
      = some (.i now)) ∧
    (∀ t0 : Int,
      Alist.alGet Db.LAST_MODIFIED ((Alist.alGet key cells).getD [])
        = some (.i t0) →
      t0 ≤ now →
      ∃ t1 : Int,
        Alist.alGet Db.LAST_MODIFIED
            ((Alist.alGet key (Db.insertCell cells key cell now)).getD [])
          = some (.i t1) ∧ t0 ≤ t1) := by
  have hCL : Db.CREATED_AT ≠ Db.LAST_MODIFIED := by decide
  have hcleanC : ∀ kv ∈ cell, kv.1 ≠ Db.CREATED_AT :=
    fun kv hm => (hclean kv hm).1
  have hres : (Alist.alGet key (Db.insertCell cells key cell now)).getD []
      = Alist.alPut Db.LAST_MODIFIED (.i now)
          (Db.fillMapRef cell
            (if (Alist.alGet Db.CREATED_AT
                ((Alist.alGet key cells).getD [])).isNone then
              Alist.alPut Db.CREATED_AT (.i now)
                ((Alist.alGet key cells).getD [])
            else (Alist.alGet key cells).getD [])) := by
    unfold Db.insertCell
    simp [Alist.alGet_alPut_same]
  refine ⟨fun h0 => ?_, fun t ht => ?_, ?_, fun t0 ht0 hle => ?_⟩
  · rw [hres, Alist.alGet_alPut_ne _ _ _ _ hCL,
      alGet_fillMapRef_of_not_mem cell Db.CREATED_AT _ hcleanC]
    simp [h0, Alist.alGet_alPut_same]
  · rw [hres, Alist.alGet_alPut_ne _ _ _ _ hCL,
      alGet_fillMapRef_of_not_mem cell Db.CREATED_AT _ hcleanC]
    simp [ht]
  · rw [hres, Alist.alGet_alPut_same]
  · refine ⟨now, ?_, hle⟩
    rw [hres, Alist.alGet_alPut_same]

/-- Witness for C4 (amended): a first write at time 5 stamps both
timestamps with 5; a second write at time 7 keeps `created_at = 5` and
restamps `last_modified = 7 ≥ 5`. -/
theorem insert_cell_timestamps_witness :
    (Alist.alGet Db.CREATED_AT
        ((Alist.alGet "f1" (Db.insertCell [] "f1" Ex.cellPayload 5)).getD [])
      = some (.i 5)) ∧
    (Alist.alGet Db.CREATED_AT
        ((Alist.alGet "f1"
          (Db.insertCell (Db.insertCell [] "f1" Ex.cellPayload 5) "f1"
            Ex.cellPayload 7)).getD [])
      = some (.i 5)) ∧
    (∃ t1 : Int,
      Alist.alGet Db.LAST_MODIFIED
          ((Alist.alGet "f1"
            (Db.insertCell (Db.insertCell [] "f1" Ex.cellPayload 5) "f1"
              Ex.cellPayload 7)).getD [])
        = some (.i t1) ∧ (5 : Int) ≤ t1) :=
  ⟨(insert_cell_timestamps [] "f1" Ex.cellPayload 5 (by decide)).1 (by decide),
    (insert_cell_timestamps (Db.insertCell [] "f1" Ex.cellPayload 5) "f1"
      Ex.cellPayload 7 (by decide)).2.1 (Db.DbVal.i 5) (by decide),
    (insert_cell_timestamps (Db.insertCell [] "f1" Ex.cellPayload 5) "f1"
      Ex.cellPayload 7 (by decide)).2.2.2 5 (by decide) (by decide)⟩

/-- Counterexample to C4 as stated: two writes of the same cell landing in
the same clock tick (`timestamp()` has one-second granularity) leave
`last_modified = 5` both times, which does not strictly exceed its previous
value 5. -/
theorem last_modified_not_strict_cex :
    (Alist.alGet Db.LAST_MODIFIED
        ((Alist.alGet "f1" (Db.insertCell [] "f1" Ex.cellPayload 5)).getD [])
      = some (.i 5)) ∧
    (Alist.alGet Db.LAST_MODIFIED
        ((Alist.alGet "f1"
          (Db.insertCell (Db.insertCell [] "f1" Ex.cellPayload 5) "f1"
            Ex.cellPayload 5)).getD [])
      = some (.i 5)) ∧
    ¬ ((5 : Int) < 5) := by
  decide

/-- Claim C7: `Block::update_row` and `Block::update_row_meta` are no-ops
when the row is not in the cache (the mutator is not invoked — the result
does not depend on it — and neither cache nor stored state changes); when
the row is cached, the mutator runs inside the row write transaction. -/
theorem update_row_noop_when_uncached (st : Db.BlockState) (rowId : String)
    (f : Db.Row → Db.Row) (g : Db.RowMeta → Db.RowMeta) :
    (Alist.alGet rowId st.cache = none →
      Db.updateRow st rowId f = st ∧ Db.updateRowMeta st rowId g = st) ∧
    (∀ dr, Alist.alGet rowId st.cache = some dr →
      Alist.alGet rowId (Db.updateRow st rowId f).cache
        = some (dr.update f) ∧
      Alist.alGet rowId (Db.updateRowMeta st rowId g).cache
        = some (dr.updateMeta g) ∧
      (Db.updateRow st rowId f).kv = st.kv ∧
      (Db.updateRow st rowId f).tasks = st.tasks) := by
  constructor
  · intro h
    constructor <;> simp [Db.updateRow, Db.updateRowMeta, Db.cacheGet, h]
  · intro dr h
    refine ⟨?_, ?_, ?_, ?_⟩ <;>
      simp [Db.updateRow, Db.updateRowMeta, Db.cacheGet, h,
        Alist.alGet_alPut_same]

/-- Witness for C7: on an empty cache both updates are no-ops; with row
`r1` cached, the mutators are applied to the cached session. -/
theorem update_row_noop_when_uncached_witness :
    (Db.updateRow Ex.stEmptyDb "r1" Ex.fEx = Ex.stEmptyDb ∧
      Db.updateRowMeta Ex.stEmptyDb "r1" Ex.gEx = Ex.stEmptyDb) ∧
    (Alist.alGet "r1" (Db.updateRow Ex.stCached "r1" Ex.fEx).cache
        = some (Ex.drEx.update Ex.fEx) ∧
      Alist.alGet "r1" (Db.updateRowMeta Ex.stCached "r1" Ex.gEx).cache
        = some (Ex.drEx.updateMeta Ex.gEx)) :=
  ⟨(update_row_noop_when_uncached Ex.stEmptyDb "r1" Ex.fEx Ex.gEx).1
      (by decide),
    ((update_row_noop_when_uncached Ex.stCached "r1" Ex.fEx Ex.gEx).2
        Ex.drEx (by decide)).1,
    ((update_row_noop_when_uncached Ex.stCached "r1" Ex.fEx Ex.gEx).2
        Ex.drEx (by decide)).2.1⟩

/-- Attaching a sender to the coalesced task queue does not change which
tasks fetch a given row. -/
theorem fetchTaskCount_map_attach (tasks : List Db.BlockTask)
    (rowId : String) (n : Nat) :
    Db.fetchTaskCount (tasks.map (Db.attachSender rowId n)) rowId
      = Db.fetchTaskCount tasks rowId := by
  induction tasks with
  | nil => rfl
  | cons t rest ih =>
    cases t with
    | fetchRow r s2 k =>
      by_cases h : r = rowId <;>
        simp [Db.fetchTaskCount, Db.attachSender, Db.BlockTask.isFetchFor,
          List.filter_cons, h, ih] <;>
        simpa [Db.fetchTaskCount] using ih
    | batchFetchRow rs s2 k =>
      simpa [Db.fetchTaskCount, Db.attachSender, Db.BlockTask.isFetchFor,
        List.filter_cons] using ih

/-- No queued task fetches `rowId` exactly when the fetch-task count is
zero. -/
theorem any_isFetch_eq_false_iff (tasks : List Db.BlockTask)
    (rowId : String) :
    tasks.any (Db.BlockTask.isFetchFor rowId) = false ↔
      Db.fetchTaskCount tasks rowId = 0 := by
  induction tasks with
  | nil => simp [Db.fetchTaskCount]
  | cons t rest ih =>
    cases hb : Db.BlockTask.isFetchFor rowId t <;>
      simp [Db.fetchTaskCount, List.filter_cons, hb, ih]

/-- Unfolding `add_task` on a single-row fetch task. -/
theorem addTask_fetch_eq (tasks : List Db.BlockTask) (rowId : String)
    (seq n : Nat) :
    Db.addTask tasks (.fetchRow rowId seq n)
      = if tasks.any (Db.BlockTask.isFetchFor rowId) = true
        then tasks.map (Db.attachSender rowId n)
        else tasks ++ [.fetchRow rowId seq n] := rfl

/-- Enqueueing a fetch for a row with no queued fetch yields exactly one. -/
theorem fetchTaskCount_addTask_of_none (tasks : List Db.BlockTask)
    (rowId : String) (seq n : Nat)
    (h : Db.fetchTaskCount tasks rowId = 0) :
    Db.fetchTaskCount (Db.addTask tasks (.fetchRow rowId seq n)) rowId = 1 := by
  have hany : tasks.any (Db.BlockTask.isFetchFor rowId) = false :=
    (any_isFetch_eq_false_iff tasks rowId).mpr h
  rw [addTask_fetch_eq, hany]
  have h2 : (tasks.filter (Db.BlockTask.isFetchFor rowId)).length = 0 := h
  simp [Db.fetchTaskCount, List.filter_append, Db.BlockTask.isFetchFor, h2]

/-- Enqueueing a fetch for a row that already has one coalesces: the count
is unchanged. -/
theorem fetchTaskCount_addTask_of_some (tasks : List Db.BlockTask)
    (rowId : String) (seq n : Nat)
    (h : Db.fetchTaskCount tasks rowId ≠ 0) :
    Db.fetchTaskCount (Db.addTask tasks (.fetchRow rowId seq n)) rowId
      = Db.fetchTaskCount tasks rowId := by
  have hany : tasks.any (Db.BlockTask.isFetchFor rowId) = true := by
    cases hx : tasks.any (Db.BlockTask.isFetchFor rowId) with
    | false => exact absurd ((any_isFetch_eq_false_iff tasks rowId).mp hx) h
    | true => rfl
  rw [addTask_fetch_eq, hany]
  simp [fetchTaskCount_map_attach]

/-- One `get_row` call on a row absent from cache and KV: the relevant
state transition. -/
theorem getRow_missing_eq (st : Db.BlockState) (rowId : String)
    (halive : st.dbAlive = true)
    (hcache : Alist.alGet rowId st.cache = none)
    (hkv : Alist.alGet rowId st.kv = none) :
    Db.getRow st rowId =
      (Db.Row.empty rowId,
        { st with
          tasks := Db.addTask st.tasks (.fetchRow rowId st.seq 1)
          seq := st.seq + 1 }) := by
  unfold Db.getRow Db.getOrInitRow Db.cacheGet
  simp [halive, hcache, hkv]

/-- Claim C5: for a row id absent from the row cache and from the KV store,
`Block::get_row` returns an empty row (that id, no cells) rather than an
error, leaves cache, KV and liveness untouched, and enqueues a single-row
fetch task for that id that coalesces with any already-queued fetch, so
that even repeated (concurrent) callers leave exactly one queued fetch
task for the id. -/
theorem get_row_missing_row_enqueues_single_fetch (st : Db.BlockState)
    (rowId : String)
    (halive : st.dbAlive = true)
    (hcache : Alist.alGet rowId st.cache = none)
    (hkv : Alist.alGet rowId st.kv = none) :
    (Db.getRow st rowId).1 = Db.Row.empty rowId ∧
    (Db.getRow st rowId).2.cache = st.cache ∧
    (Db.getRow st rowId).2.kv = st.kv ∧
    (Db.getRow st rowId).2.dbAlive = st.dbAlive ∧
    (Db.fetchTaskCount st.tasks rowId = 0 →
      Db.fetchTaskCount (Db.getRow st rowId).2.tasks rowId = 1 ∧
      Db.fetchTaskCount
          (Db.getRow (Db.getRow st rowId).2 rowId).2.tasks rowId = 1) ∧
    (Db.fetchTaskCount st.tasks rowId ≠ 0 →
      Db.fetchTaskCount (Db.getRow st rowId).2.tasks rowId
        = Db.fetchTaskCount st.tasks rowId) := by
  have h1 := getRow_missing_eq st rowId halive hcache hkv
  rw [h1]
  refine ⟨rfl, rfl, rfl, rfl, fun h0 => ?_, fun hpos => ?_⟩
  · have hc1 : Db.fetchTaskCount
        (Db.addTask st.tasks (.fetchRow rowId st.seq 1)) rowId = 1 :=
      fetchTaskCount_addTask_of_none st.tasks rowId st.seq 1 h0
    refine ⟨hc1, ?_⟩
    have h2 := getRow_missing_eq
      { st with
        tasks := Db.addTask st.tasks (.fetchRow rowId st.seq 1)
        seq := st.seq + 1 } rowId halive hcache hkv
    rw [h2]
    have := fetchTaskCount_addTask_of_some
      (Db.addTask st.tasks (.fetchRow rowId st.seq 1)) rowId (st.seq + 1) 1
      (by rw [hc1]; exact Nat.one_ne_zero)
    rw [this, hc1]
  · exact fetchTaskCount_addTask_of_some st.tasks rowId st.seq 1 hpos

/-- Witness for C5: on a fresh block engine, one call returns the empty
row and queues one fetch task for `r1`; a second call leaves exactly one. -/
theorem get_row_missing_row_enqueues_single_fetch_witness :
    (Db.getRow Ex.stEmptyDb "r1").1 = Db.Row.empty "r1" ∧
    Db.fetchTaskCount (Db.getRow Ex.stEmptyDb "r1").2.tasks "r1" = 1 ∧
    Db.fetchTaskCount
        (Db.getRow (Db.getRow Ex.stEmptyDb "r1").2 "r1").2.tasks "r1" = 1 :=
  ⟨(get_row_missing_row_enqueues_single_fetch Ex.stEmptyDb "r1"
      (by decide) (by decide) (by decide)).1,
    ((get_row_missing_row_enqueues_single_fetch Ex.stEmptyDb "r1"
      (by decide) (by decide) (by decide)).2.2.2.2.1 (by decide)).1,
    ((get_row_missing_row_enqueues_single_fetch Ex.stEmptyDb "r1"
      (by decide) (by decide) (by decide)).2.2.2.2.1 (by decide)).2⟩


/-- Claim C6: when the moved block, its current parent and the target
parent all exist, `move_block` first deletes the block from the old
parent's children list and then inserts it into the new parent's children
list at the index of `prev_id` plus one (or at index 0 when `prev_id` is
absent or not found); afterwards the block's parent field is the new
parent's id. -/
theorem move_block_reparents (st : Doc.DocState) (blockId npId : String)
    (prevId : Option String) (b np op : Doc.Block)
    (hb : Doc.getBlock st blockId = some b)
    (hnp : Doc.getBlock st npId = some np)
    (hop : Doc.getBlock st b.parent = some op) :
    ∃ st2,
      Doc.moveBlock st blockId (some npId) prevId = Except.ok st2 ∧
      Doc.childrenOf st2 np.children
        = insertAt (Doc.moveIndex (Doc.moveBase st np op blockId) prevId)
            blockId (Doc.moveBase st np op blockId) ∧
      (np.children ≠ op.children →
        Doc.childrenOf st2 op.children
          = (Doc.childrenOf st op.children).erase blockId) ∧
      Doc.getBlock st2 blockId = some { b with parent := np.id } := by
  have hbase : Doc.childrenOf (Doc.deleteChild st op.children blockId)
      np.children = Doc.moveBase st np op blockId := by
    unfold Doc.moveBase
    by_cases h2 : np.children = op.children
    · rw [if_pos h2, h2]
      simp [Doc.childrenOf, Doc.deleteChild, Alist.alGet_alPut_same]
    · rw [if_neg h2]
      simp [Doc.childrenOf, Doc.deleteChild,
        Alist.alGet_alPut_ne _ _ _ _ h2]
  have hidx : (prevId.bind fun a =>
        Option.map (fun prevIndex => prevIndex + 1)
          (Doc.getChildIndex (Doc.deleteChild st op.children blockId)
            np.children a)).getD 0
      = Doc.moveIndex (Doc.moveBase st np op blockId) prevId := by
    cases prevId with
    | none => rfl
    | some p => simp [Doc.moveIndex, Doc.getChildIndex, hbase]
  have hred : Doc.moveBlock st blockId (some npId) prevId
      = Doc.setBlock
          (Doc.insertChild (Doc.deleteChild st op.children blockId)
            np.children blockId
            (Doc.moveIndex (Doc.moveBase st np op blockId) prevId))
          blockId (some b.data) (some np.id) none none := by
    unfold Doc.moveBlock
    simp [hnp, hb, hop]
    rw [hidx]
  have hget : Alist.alGet blockId
      (Doc.insertChild (Doc.deleteChild st op.children blockId)
        np.children blockId
        (Doc.moveIndex (Doc.moveBase st np op blockId) prevId)).blocks
      = some b := hb
  have hset : Doc.setBlock
      (Doc.insertChild (Doc.deleteChild st op.children blockId)
        np.children blockId
        (Doc.moveIndex (Doc.moveBase st np op blockId) prevId))
      blockId (some b.data) (some np.id) none none
      = Except.ok
        { (Doc.insertChild (Doc.deleteChild st op.children blockId)
            np.children blockId
            (Doc.moveIndex (Doc.moveBase st np op blockId) prevId)) with
          blocks := Alist.alPut blockId { b with parent := np.id }
            (Doc.insertChild (Doc.deleteChild st op.children blockId)
              np.children blockId
              (Doc.moveIndex (Doc.moveBase st np op blockId) prevId)).blocks } := by
    unfold Doc.setBlock
    rw [hget]
    rfl
  refine ⟨_, hred.trans hset, ?_, ?_, ?_⟩
  · have h3 : Doc.childrenOf
        { (Doc.insertChild (Doc.deleteChild st op.children blockId)
            np.children blockId
            (Doc.moveIndex (Doc.moveBase st np op blockId) prevId)) with
          blocks := Alist.alPut blockId { b with parent := np.id }
            (Doc.insertChild (Doc.deleteChild st op.children blockId)
              np.children blockId
              (Doc.moveIndex (Doc.moveBase st np op blockId) prevId)).blocks }
        np.children
        = insertAt (Doc.moveIndex (Doc.moveBase st np op blockId) prevId)
            blockId
            (Doc.childrenOf (Doc.deleteChild st op.children blockId)
              np.children) := by
      simp [Doc.childrenOf, Doc.insertChild, Alist.alGet_alPut_same]
    rw [h3, hbase]
  · intro hne
    have h3 : Doc.childrenOf
        { (Doc.insertChild (Doc.deleteChild st op.children blockId)
            np.children blockId
            (Doc.moveIndex (Doc.moveBase st np op blockId) prevId)) with
          blocks := Alist.alPut blockId { b with parent := np.id }
            (Doc.insertChild (Doc.deleteChild st op.children blockId)
              np.children blockId
              (Doc.moveIndex (Doc.moveBase st np op blockId) prevId)).blocks }
        op.children
        = Doc.childrenOf (Doc.deleteChild st op.children blockId)
            op.children := by
      simp [Doc.childrenOf, Doc.insertChild,
        Alist.alGet_alPut_ne _ _ _ _ (Ne.symm hne)]
    rw [h3]
    simp [Doc.childrenOf, Doc.deleteChild, Alist.alGet_alPut_same]
  · show Alist.alGet blockId (Alist.alPut blockId
        { b with parent := np.id }
        (Doc.insertChild (Doc.deleteChild st op.children blockId)
          np.children blockId
          (Doc.moveIndex (Doc.moveBase st np op blockId) prevId)).blocks)
      = some { b with parent := np.id }
    exact Alist.alGet_alPut_same _ _ _

/-- Witness for C6, the spec scenario: with blocks `B1 → C1` and `B2`
empty, moving `C1` under `B2` with no `prev_id` empties `B1`'s children,
puts `C1` first under `B2`, and sets `C1.parent = B2`. -/
theorem move_block_reparents_witness :
    ∃ st2,
      Doc.moveBlock Ex.docMove "C1" (some "B2") none = Except.ok st2 ∧
      Doc.childrenOf st2 Ex.mvB2.children
        = insertAt
            (Doc.moveIndex (Doc.moveBase Ex.docMove Ex.mvB2 Ex.mvB1 "C1") none)
            "C1" (Doc.moveBase Ex.docMove Ex.mvB2 Ex.mvB1 "C1") ∧
      (Ex.mvB2.children ≠ Ex.mvB1.children →
        Doc.childrenOf st2 Ex.mvB1.children
          = (Doc.childrenOf Ex.docMove Ex.mvB1.children).erase "C1") ∧
      Doc.getBlock st2 "C1" = some { Ex.mvC1 with parent := Ex.mvB2.id } :=
  move_block_reparents Ex.docMove "C1" "B2" none Ex.mvC1 Ex.mvB2 Ex.mvB1
    (by decide) (by decide) (by decide)
